import Mathlib

/-!
# Verification of the market statistics-and-report pipeline

Shallow embedding of `src/analyze_and_report.py`.

Modelling conventions:
* A loaded CSV (`pd.read_csv` followed by `pd.to_datetime` on the
  `timestamp` column) is a `MarketTable`: the ordered list of rows, each
  carrying the parsed timestamp (an integer time value; the parse is
  order-preserving) and one `Option ℚ` cell per `<symbol>_price` column
  (CSV numerals are decimal literals, hence rationals; empty cells are
  `none`/NaN).  The loader performs no reordering, so the row order of the
  table is the row order of the file.
* IEEE-754 double arithmetic is modelled exactly by `FVal`: a finite value
  (an exact real — rounding error is abstracted away, special values are
  not), `+inf`, `-inf` or `nan`, with the IEEE rules for the arithmetic
  the script performs (in particular `x/0`, `0/0`, and NaN-poisoning).
  Numpy float operations warn but never raise, so every operation is a
  total function.
* `prices.std()` is the pandas sample standard deviation (`ddof = 1`),
  which is NaN on a series of length ≤ 1.
* File writes are modelled by the `Except.ok` payload of the pipeline:
  the report file exists iff the pipeline returns `.ok (filename, text)`.
  `datetime.now()` is hoisted into explicit string parameters.
-/

/-- IEEE-754 double values as used by the script: exact finite value,
infinities, or NaN. -/
inductive FVal where
  | fin : ℝ → FVal
  | pinf : FVal
  | ninf : FVal
  | nan : FVal

namespace FVal

/-- IEEE addition (as performed by numpy/pandas on float64). -/
noncomputable def fadd : FVal → FVal → FVal
  | fin a, fin b => fin (a + b)
  | nan, _ => nan
  | _, nan => nan
  | pinf, ninf => nan
  | ninf, pinf => nan
  | pinf, _ => pinf
  | _, pinf => pinf
  | ninf, _ => ninf
  | _, ninf => ninf

/-- IEEE negation. -/
noncomputable def fneg : FVal → FVal
  | fin a => fin (-a)
  | pinf => ninf
  | ninf => pinf
  | nan => nan

/-- IEEE subtraction. -/
noncomputable def fsub (x y : FVal) : FVal := fadd x (fneg y)

/-- IEEE multiplication. -/
noncomputable def fmul : FVal → FVal → FVal
  | fin a, fin b => fin (a * b)
  | nan, _ => nan
  | _, nan => nan
  | pinf, pinf => pinf
  | pinf, ninf => ninf
  | ninf, pinf => ninf
  | ninf, ninf => pinf
  | pinf, fin b => if b = 0 then nan else if 0 < b then pinf else ninf
  | fin a, pinf => if a = 0 then nan else if 0 < a then pinf else ninf
  | ninf, fin b => if b = 0 then nan else if 0 < b then ninf else pinf
  | fin a, ninf => if a = 0 then nan else if 0 < a then ninf else pinf

/-- IEEE division: division by (positive) zero yields `nan` for a zero
numerator and a signed infinity otherwise — numpy warns but never raises. -/
noncomputable def fdiv : FVal → FVal → FVal
  | fin a, fin b =>
      if b = 0 then (if a = 0 then nan else if 0 < a then pinf else ninf)
      else fin (a / b)
  | nan, _ => nan
  | _, nan => nan
  | fin _, pinf => fin 0
  | fin _, ninf => fin 0
  | pinf, fin b => if 0 ≤ b then pinf else ninf
  | ninf, fin b => if 0 ≤ b then ninf else pinf
  | pinf, _ => nan
  | ninf, _ => nan

/-- Python `>` on floats: any comparison involving NaN is false. -/
def fgt : FVal → FVal → Prop
  | fin a, fin b => b < a
  | pinf, fin _ => True
  | pinf, ninf => True
  | fin _, ninf => True
  | _, _ => False

/-- Python `<` on floats: any comparison involving NaN is false. -/
def flt : FVal → FVal → Prop
  | fin a, fin b => a < b
  | ninf, fin _ => True
  | ninf, pinf => True
  | fin _, pinf => True
  | _, _ => False

/-- Python float comparisons are decidable (classically). -/
noncomputable instance (x y : FVal) : Decidable (fgt x y) := Classical.dec _

/-- Python float comparisons are decidable (classically). -/
noncomputable instance (x y : FVal) : Decidable (flt x y) := Classical.dec _

end FVal

open FVal

/-- One CSV row after loading: the parsed timestamp and one optional price
per `<symbol>_price` column (in column order). -/
structure Row where
  ts : ℤ
  prices : List (Option ℚ)

/-- The loaded table: the discovered symbol names (from the `<symbol>_price`
columns, in column order) and the rows in file order.  The loader
(`pd.read_csv`) does not reorder rows. -/
structure MarketTable where
  tickers : List String
  rows : List Row

/-- `df[col].dropna()`: the sub-sequence of non-missing values of column
`j`, in row order. -/
def dropnaCol (t : MarketTable) (j : ℕ) : List ℚ :=
  t.rows.filterMap (fun r => r.prices.getD j none)

/-- Mean of a rational list (`prices.mean()`); only used on non-empty
series by the script. -/
def qmean (l : List ℚ) : ℚ := l.sum / l.length

/-- `prices.median()`: middle element of the sorted series, or the average
of the two middle elements. -/
def qmedian (l : List ℚ) : ℚ :=
  let s := List.insertionSort (fun a b => a ≤ b) l
  let n := s.length
  if n % 2 = 1 then s.getD (n / 2) 0
  else (s.getD (n / 2 - 1) 0 + s.getD (n / 2) 0) / 2

/-- `prices.min()` (non-empty series). -/
def qminimum (l : List ℚ) : ℚ :=
  match l with
  | [] => 0
  | h :: rest => rest.foldl Min.min h

/-- `prices.max()` (non-empty series). -/
def qmaximum (l : List ℚ) : ℚ :=
  match l with
  | [] => 0
  | h :: rest => rest.foldl Max.max h

/-- Sample variance with `ddof = 1` (pandas default), defined for series of
length ≥ 2. -/
def sampleVarQ (l : List ℚ) : ℚ :=
  (l.map (fun x => (x - qmean l) * (x - qmean l))).sum / ((l.length : ℚ) - 1)

/-- `prices.std()`: pandas sample standard deviation (`ddof = 1`); NaN on a
series of length ≤ 1. -/
noncomputable def sampleStd (l : List ℚ) : FVal :=
  if l.length ≤ 1 then FVal.nan
  else FVal.fin (Real.sqrt ((sampleVarQ l : ℚ) : ℝ))

/-- The per-symbol statistics dict built by `analyze_data`. -/
structure SymbolStats where
  current : FVal
  mean : FVal
  median : FVal
  min : FVal
  max : FVal
  std : FVal
  total_change : FVal
  pct_change : FVal
  volatility : FVal
  data_points : ℕ

/-- The statistics dict entries of `analyze_data` for one non-empty
dropped-NA series `prices` (lines 84–95 of the script):
`current = prices.iloc[-1]`, `total_change = iloc[-1] - iloc[0]`,
`pct_change = ((iloc[-1] - iloc[0]) / iloc[0]) * 100`,
`volatility = (std / mean) * 100`. -/
noncomputable def mkStats (prices : List ℚ) : SymbolStats :=
  let fst : ℝ := ((prices.headD 0 : ℚ) : ℝ)
  let lst : ℝ := ((prices.getLastD 0 : ℚ) : ℝ)
  let mu : ℝ := ((qmean prices : ℚ) : ℝ)
  { current := FVal.fin lst
    mean := FVal.fin mu
    median := FVal.fin ((qmedian prices : ℚ) : ℝ)
    min := FVal.fin ((qminimum prices : ℚ) : ℝ)
    max := FVal.fin ((qmaximum prices : ℚ) : ℝ)
    std := sampleStd prices
    total_change := fsub (FVal.fin lst) (FVal.fin fst)
    pct_change := fmul (fdiv (fsub (FVal.fin lst) (FVal.fin fst)) (FVal.fin fst)) (FVal.fin 100)
    volatility := fmul (fdiv (sampleStd prices) (FVal.fin mu)) (FVal.fin 100)
    data_points := prices.length }

/-- The `for ticker, col in zip(tickers, price_cols)` loop of
`analyze_data`: column `j` is the `j`-th price column; a symbol is included
iff its dropped-NA series is non-empty (`if len(prices) > 0`). -/
noncomputable def computeStatsAux (t : MarketTable) : ℕ → List String → List (String × SymbolStats)
  | _, [] => []
  | j, tkr :: rest =>
      (if (dropnaCol t j).isEmpty then [] else [(tkr, mkStats (dropnaCol t j))])
        ++ computeStatsAux t (j + 1) rest

/-- `stats` as built by `analyze_data`: an association list in symbol
(column) order, one entry per symbol with at least one non-missing value. -/
noncomputable def computeStats (t : MarketTable) : List (String × SymbolStats) :=
  computeStatsAux t 0 t.tickers

/-- A row kept by `df[price_cols].dropna()`: every price column is
non-missing. -/
def completeRow (t : MarketTable) (r : Row) : Bool :=
  (List.range t.tickers.length).all (fun j => (r.prices.getD j none).isSome)

/-- `df[price_cols].dropna()`: the complete-case rows, in row order. -/
def completeRows (t : MarketTable) : List Row :=
  t.rows.filter (fun r => completeRow t r)

/-- Column `j` restricted to the complete-case rows. -/
def corrCol (t : MarketTable) (j : ℕ) : List ℚ :=
  (completeRows t).filterMap (fun r => r.prices.getD j none)

/-- Pearson correlation coefficient of two equal-length series
(`price_df.corr()` entry): `nan` when either series is constant
(zero denominator, pandas yields NaN). -/
noncomputable def pearson (xs ys : List ℚ) : FVal :=
  let n : ℚ := xs.length
  let sx := xs.sum
  let sy := ys.sum
  let sxy := (List.zipWith (fun a b => a * b) xs ys).sum
  let sxx := (xs.map (fun x => x * x)).sum
  let syy := (ys.map (fun y => y * y)).sum
  let den : ℝ := Real.sqrt (((n * sxx - sx * sx) * (n * syy - sy * sy) : ℚ) : ℝ)
  if den = 0 then FVal.nan
  else FVal.fin (((n * sxy - sx * sy : ℚ) : ℝ) / den)

/-- `correlations = price_df.corr() if len(price_df) > 1 else None`
(line 100): the matrix is indexed by price-column positions and is computed
over exactly the complete-case rows. -/
noncomputable def computeCorrelations (t : MarketTable) : Option (ℕ → ℕ → FVal) :=
  if 1 < (completeRows t).length then
    some (fun i j => pearson (corrCol t i) (corrCol t j))
  else none

/-- `analyze_data` returns the table, the stats dict, the correlation
matrix and the ticker list. -/
noncomputable def analyze_data (t : MarketTable) :
    MarketTable × List (String × SymbolStats) × Option (ℕ → ℕ → FVal) × List String :=
  (t, computeStats t, computeCorrelations t, t.tickers)

/-! ## Numeric formatting (Python format specifiers) -/

/-- Chunks of three characters (used to model the `:,` thousands
separator). -/
def chunk3 : List Char → List (List Char)
  | [] => []
  | a :: b :: c :: rest => [a, b, c] :: chunk3 rest
  | l => [l]

/-- Python `:,` formatting of a natural number. -/
def fmtComma (n : ℕ) : String :=
  ⟨(List.intercalate [','] (chunk3 (Nat.repr n).data.reverse)).reverse⟩

/-- Two-digit zero-padded fraction part. -/
def pad2 (k : ℕ) : String :=
  if k < 10 then "0" ++ Nat.repr k else Nat.repr k

/-- Python `:.2f` on a finite double (to-nearest rounding of the exact
value, modelled as round-half-up on the exact real). -/
noncomputable def fmt2R (r : ℝ) : String :=
  let n : ℤ := round (r * 100)
  (if n < 0 then "-" else "") ++ Nat.repr (n.natAbs / 100) ++ "." ++ pad2 (n.natAbs % 100)

/-- Python `:.2f` on a double (`inf`, `-inf` and `nan` print as such). -/
noncomputable def fmtF2 : FVal → String
  | FVal.fin r => fmt2R r
  | FVal.pinf => "inf"
  | FVal.ninf => "-inf"
  | FVal.nan => "nan"

/-- Python `:+.2f` on a double (explicit sign). -/
noncomputable def fmtS2 : FVal → String
  | FVal.fin r => if r < 0 then fmt2R r else "+" ++ fmt2R r
  | FVal.pinf => "+inf"
  | FVal.ninf => "-inf"
  | FVal.nan => "+nan"

/-- Python `:.3f` on a double. -/
noncomputable def fmt3R (r : ℝ) : String :=
  let n : ℤ := round (r * 1000)
  (if n < 0 then "-" else "") ++ Nat.repr (n.natAbs / 1000) ++ "." ++
    (if n.natAbs % 1000 < 10 then "00" else if n.natAbs % 1000 < 100 then "0" else "") ++
    Nat.repr (n.natAbs % 1000)

/-- Python `:.3f` on a double. -/
noncomputable def fmtF3 : FVal → String
  | FVal.fin r => fmt3R r
  | FVal.pinf => "inf"
  | FVal.ninf => "-inf"
  | FVal.nan => "nan"

/-! ## Report renderer (`generate_markdown_report`) -/

/-- `df['timestamp'].min()` (0 on an empty table; only printed). -/
def tsMin (t : MarketTable) : ℤ :=
  match t.rows with
  | [] => 0
  | r :: rest => rest.foldl (fun m x => Min.min m x.ts) r.ts

/-- `df['timestamp'].max()` (0 on an empty table; only printed). -/
def tsMax (t : MarketTable) : ℤ :=
  match t.rows with
  | [] => 0
  | r :: rest => rest.foldl (fun m x => Max.max m x.ts) r.ts

/-- `(max - min).days`, with timestamps modelled in seconds. -/
def durDays (t : MarketTable) : ℤ := (tsMax t - tsMin t) / 86400

/-- Report header block (lines 111–118).  Timestamps are printed through
their numeric representation (abstracting the pandas `Timestamp` repr). -/
def headerLines (t : MarketTable) (tstr : String) : List String :=
  ["# Market Data Analysis Report",
   "**Generated:** " ++ tstr,
   "**Data Points:** " ++ fmtComma t.rows.length ++ " rows",
   "**Date Range:** " ++ toString (tsMin t) ++ " to " ++ toString (tsMax t),
   "**Duration:** " ++ toString (durDays t) ++ " days",
   "", "---", ""]

/-- CPython `max(items, key=...)`: fold keeping the first maximum, a later
item replaces the current one only when its key is strictly greater
(NaN keys never compare greater). -/
noncomputable def maxByKey (key : SymbolStats → FVal)
    (h : String × SymbolStats) (rest : List (String × SymbolStats)) :
    String × SymbolStats :=
  rest.foldl (fun best x => if fgt (key x.2) (key best.2) then x else best) h

/-- CPython `min(items, key=...)`. -/
noncomputable def minByKey (key : SymbolStats → FVal)
    (h : String × SymbolStats) (rest : List (String × SymbolStats)) :
    String × SymbolStats :=
  rest.foldl (fun best x => if flt (key x.2) (key best.2) then x else best) h

/-- Executive-summary block (lines 121–133).  On an empty stats dict the
script raises (`max()` of an empty sequence) — that case is lifted into
`generate_markdown_report`; the `[]` branch here is unreachable. -/
noncomputable def execLines (stats : List (String × SymbolStats)) : List String :=
  match stats with
  | [] => []
  | e :: rest =>
      let best := maxByKey (fun s => s.pct_change) e rest
      let worst := minByKey (fun s => s.pct_change) e rest
      let mv := maxByKey (fun s => s.volatility) e rest
      ["## Executive Summary", "",
       "- **Best Performer:** " ++ best.1 ++ " (" ++ fmtS2 best.2.pct_change ++ "%)",
       "- **Worst Performer:** " ++ worst.1 ++ " (" ++ fmtS2 worst.2.pct_change ++ "%)",
       "- **Most Volatile:** " ++ mv.1 ++ " (" ++ fmtF2 mv.2.volatility ++ "% volatility)",
       "", "---", ""]

/-- Per-symbol metrics table (lines 142–156). -/
noncomputable def symbolBlock (tkr : String) (s : SymbolStats) : List String :=
  ["### " ++ tkr, "",
   "| Metric | Value |",
   "|--------|-------|",
   "| Current Price | $" ++ fmtF2 s.current ++ " |",
   "| Average Price | $" ++ fmtF2 s.mean ++ " |",
   "| Median Price | $" ++ fmtF2 s.median ++ " |",
   "| Min Price | $" ++ fmtF2 s.min ++ " |",
   "| Max Price | $" ++ fmtF2 s.max ++ " |",
   "| Price Range | $" ++ fmtF2 (fsub s.max s.min) ++ " |",
   "| Std Deviation | $" ++ fmtF2 s.std ++ " |",
   "| Total Change | $" ++ fmtS2 s.total_change ++ " (" ++ fmtS2 s.pct_change ++ "%) |",
   "| Volatility | " ++ fmtF2 s.volatility ++ "% |",
   "| Data Points | " ++ fmtComma s.data_points ++ " |",
   ""]

/-- Individual-stock section (lines 136–159): `for ticker in tickers: if
ticker in stats: ...`. -/
noncomputable def individualLines (tickers : List String)
    (stats : List (String × SymbolStats)) : List String :=
  ["## Individual Stock Analysis", ""]
    ++ tickers.flatMap (fun tk =>
        match List.lookup tk stats with
        | some s => symbolBlock tk s
        | none => [])
    ++ ["---", ""]

/-- Correlation section (lines 162–180), emitted only when `correlations
is not None`.  The `col in correlations.columns` membership test is always
true (the complete-case frame keeps every price column), so every unordered
pair is listed. -/
noncomputable def corrLines (corr : Option (ℕ → ℕ → FVal)) (tickers : List String) :
    List String :=
  match corr with
  | none => []
  | some m =>
      ["## Correlation Analysis", "",
       "Price correlations between stocks:", ""]
        ++ (List.range tickers.length).flatMap (fun i =>
            (List.range (tickers.length - (i + 1))).map (fun k =>
              "- **" ++ tickers.getD i "" ++ " ↔ " ++ tickers.getD (i + 1 + k) "" ++
                ":** " ++ fmtF3 (m i (i + 1 + k))))
        ++ ["",
            "*Correlation ranges from -1 (inverse) to +1 (perfect). Values near 0 indicate no correlation.*",
            "", "---", ""]

/-- `np.mean` of a float list: sum divided by length (NaN on empty input;
the script only applies it to the non-empty stats dict). -/
noncomputable def npMean (l : List FVal) : FVal :=
  if l.isEmpty then FVal.nan
  else fdiv (l.foldl fadd (FVal.fin 0)) (FVal.fin (l.length : ℝ))

/-- Trend ladder (lines 188–195): `elif` chain on `avg_change` with Python
float `>` (a NaN mean falls through every branch to Bearish). -/
noncomputable def trendLabel (v : FVal) : String :=
  if fgt v (FVal.fin 1) then "📈 **Bullish** - Market showing strong upward momentum"
  else if fgt v (FVal.fin 0) then "↗️ **Slightly Bullish** - Market trending upward"
  else if fgt v (FVal.fin (-1)) then "↘️ **Slightly Bearish** - Market trending downward"
  else "📉 **Bearish** - Market showing downward pressure"

/-- Volatility ladder (lines 203–208). -/
noncomputable def volLabel (v : FVal) : String :=
  if fgt v (FVal.fin 3) then "⚠️ **High Volatility** - Significant price swings"
  else if fgt v (FVal.fin (3 / 2)) then "📊 **Moderate Volatility** - Normal market fluctuations"
  else "✅ **Low Volatility** - Stable price action"

/-- Market-insights section (lines 183–215). -/
noncomputable def insightLines (stats : List (String × SymbolStats)) : List String :=
  let avg_change := npMean (stats.map (fun p => p.2.pct_change))
  let avg_volatility := npMean (stats.map (fun p => p.2.volatility))
  ["## Market Insights", "",
   "**Overall Market Trend:** " ++ trendLabel avg_change,
   "**Average Performance:** " ++ fmtS2 avg_change ++ "%", "",
   "**Market Volatility:** " ++ volLabel avg_volatility,
   "**Average Volatility:** " ++ fmtF2 avg_volatility ++ "%", "",
   "---", ""]

/-- Footer block (lines 218–224). -/
def footerLines (t : MarketTable) (tickers : List String) (tstr : String) : List String :=
  ["## Data Summary", "",
   "- **Total Data Points:** " ++ fmtComma t.rows.length,
   "- **Stocks Analyzed:** " ++ Nat.repr tickers.length,
   "- **Analysis Timestamp:** " ++ tstr,
   "",
   "*This report is generated automatically from market data. Ready for AI analysis.*"]

/-- `generate_markdown_report` (lines 104–226), with the
`datetime.now()` timestamp hoisted into the explicit parameter `tstr`.
On an empty stats dict the script raises `ValueError: max() arg is an
empty sequence` at line 124, before any output exists; this is modelled by
the `Except.error` branch. -/
noncomputable def generate_markdown_report (t : MarketTable)
    (stats : List (String × SymbolStats)) (corr : Option (ℕ → ℕ → FVal))
    (tickers : List String) (tstr : String) : Except String (List String) :=
  if stats.isEmpty then Except.error "max() arg is an empty sequence"
  else Except.ok (headerLines t tstr ++ execLines stats ++ individualLines tickers stats
    ++ corrLines corr tickers ++ insightLines stats ++ footerLines t tickers tstr)

/-- The rendered report as a single string (`"\n".join(report_lines)`). -/
noncomputable def reportString (t : MarketTable) (stats : List (String × SymbolStats))
    (corr : Option (ℕ → ℕ → FVal)) (tickers : List String) (tstr : String) :
    Except String String :=
  (generate_markdown_report t stats corr tickers tstr).map (String.intercalate "\n")

/-- `generate_report_once` (lines 228–258): analyze, render, then write
`reports/market_analysis_<ts>.md`.  The file write is modelled by the
`.ok` payload `(filename, contents)`; an exception propagates before the
write, so no file exists on the `.error` branch. -/
noncomputable def generate_report_once (t : MarketTable) (tstr fileTs : String) :
    Except String (String × String) :=
  match generate_markdown_report t (computeStats t) (computeCorrelations t) t.tickers tstr with
  | Except.error e => Except.error e
  | Except.ok lines =>
      Except.ok ("reports/market_analysis_" ++ fileTs ++ ".md", String.intercalate "\n" lines)

/-! ## Watch mode (lines 261–286) -/

/-- The loop state: `last_size` and `last_report_time` (initially 0). -/
structure WatchState where
  last_size : ℕ
  last_report_time : ℚ

/-- Initial watch state (`last_size = 0`, `last_report_time = 0`). -/
def watchInit : WatchState := ⟨0, 0⟩

/-- One tick of the watch loop body at wall-clock time `now` observing file
size `size` (lines 272–284): regenerate iff the file has grown and at
least `interval` seconds have elapsed since the last report; on a report
both markers are updated. -/
def watchStep (interval : ℚ) (s : WatchState) (now : ℚ) (size : ℕ) : WatchState × Bool :=
  if s.last_size < size ∧ interval ≤ now - s.last_report_time then
    (⟨size, now⟩, true)
  else (s, false)

/-- The wall-clock times at which the loop generates a report, given the
sequence of `(time, size)` observations of successive ticks. -/
def reportTimes (interval : ℚ) : WatchState → List (ℚ × ℕ) → List ℚ
  | _, [] => []
  | s, o :: rest =>
      let p := watchStep interval s o.1 o.2
      (if p.2 then [o.1] else []) ++ reportTimes interval p.1 rest

/-! ## Spec-side definitions (for refinement comparison only) -/

/-- Follows the spec's words, not the code: rows sorted ascending by
timestamp (stably), then the symbol's series is the order-preserving
sub-sequence of non-missing values, and `current` is its last element.
The spec asserts `current` equals this for arbitrary input row order. -/
def specLastInTsOrder (t : MarketTable) (j : ℕ) : ℚ :=
  (dropnaCol ⟨t.tickers, List.insertionSort (fun a b => a.ts ≤ b.ts) t.rows⟩ j).getLastD 0

/-! ## Helper lemmas -/

lemma reportTimes_lower (interval : ℚ) (h0 : 0 ≤ interval) :
    ∀ (obs : List (ℚ × ℕ)) (s : WatchState) (x : ℚ),
      x ∈ reportTimes interval s obs → s.last_report_time + interval ≤ x := by
  intro obs
  induction obs with
  | nil => intro s x hx; simp [reportTimes] at hx
  | cons o rest ih =>
      intro s x hx
      simp only [reportTimes] at hx
      by_cases h : s.last_size < o.2 ∧ interval ≤ o.1 - s.last_report_time
      · simp only [watchStep, if_pos h, if_true, List.mem_append, List.mem_singleton] at hx
        rcases hx with hx | hx
        · subst hx
          linarith [h.2]
        · have h4 := ih ⟨o.2, o.1⟩ x hx
          have h5 : (⟨o.2, o.1⟩ : WatchState).last_report_time = o.1 := rfl
          rw [h5] at h4
          have h2 : s.last_report_time + interval ≤ o.1 := by linarith [h.2]
          linarith
      · simp only [watchStep, if_neg h, List.nil_append] at hx
        exact ih s x hx

lemma reportTimes_pairwise (interval : ℚ) (h0 : 0 ≤ interval) :
    ∀ (obs : List (ℚ × ℕ)) (s : WatchState),
      List.Pairwise (fun a b => a + interval ≤ b) (reportTimes interval s obs) := by
  intro obs
  induction obs with
  | nil => intro s; simp [reportTimes]
  | cons o rest ih =>
      intro s
      simp only [reportTimes]
      by_cases h : s.last_size < o.2 ∧ interval ≤ o.1 - s.last_report_time
      · simp only [watchStep, if_pos h, List.singleton_append]
        refine List.Pairwise.cons ?_ (ih ⟨o.2, o.1⟩)
        intro x hx
        have h4 := reportTimes_lower interval h0 rest ⟨o.2, o.1⟩ x hx
        have h5 : (⟨o.2, o.1⟩ : WatchState).last_report_time = o.1 := rfl
        rw [h5] at h4
        linarith
      · simp only [watchStep, if_neg h, List.nil_append]
        exact ih s

lemma computeStatsAux_rows_nil (t : MarketTable) (h : t.rows = []) :
    ∀ (rest : List String) (j0 : ℕ), computeStatsAux t j0 rest = [] := by
  intro rest
  induction rest with
  | nil => intro j0; rfl
  | cons tkr rest ih =>
      intro j0
      have hd : dropnaCol t j0 = [] := by simp [dropnaCol, h]
      simp [computeStatsAux, hd, ih]

lemma computeStats_empty_of_degenerate (t : MarketTable)
    (h : t.rows = [] ∨ t.tickers = []) : computeStats t = [] := by
  rcases h with h | h
  · exact computeStatsAux_rows_nil t h t.tickers 0
  · simp [computeStats, h, computeStatsAux]

/-- The spec's three-row two-symbol scenario: symbol prices
`(1, A=100, B=—) (2, A=110, B=50) (3, A=—, B=55)`. -/
def scenarioTable : MarketTable :=
  ⟨["A", "B"], [⟨1, [some 100, none]⟩, ⟨2, [some 110, some 50]⟩, ⟨3, [none, some 55]⟩]⟩

/-- A table with two complete rows (used to exhibit the defined branch of
the correlation computation). -/
def twoRowTable : MarketTable :=
  ⟨["A", "B"], [⟨1, [some 1, some 2]⟩, ⟨2, [some 3, some 5]⟩]⟩

/-! ## Claim theorems -/

/-- C5: `computeCorrelations` restricts to the row-wise complete cases and
computes the Pearson matrix over exactly those rows; with fewer than two
complete rows it returns `None` instead of failing, and in particular the
spec's three-row A/B scenario has a single complete row, so its
correlation is undefined. -/
theorem correlations_complete_case_guard (t : MarketTable) :
    (computeCorrelations t = none ↔ (completeRows t).length ≤ 1) ∧
    (1 < (completeRows t).length →
      computeCorrelations t = some (fun i j => pearson (corrCol t i) (corrCol t j))) ∧
    (completeRows scenarioTable).length = 1 ∧
    computeCorrelations scenarioTable = none := by
  refine ⟨?_, ?_, by decide, ?_⟩
  · by_cases h : 1 < (completeRows t).length
    · rw [computeCorrelations, if_pos h]
      constructor
      · intro hc
        exact absurd hc (Option.some_ne_none _)
      · intro hl
        exact absurd h (by omega)
    · rw [computeCorrelations, if_neg h]
      constructor
      · intro _
        omega
      · intro _
        rfl
  · intro h
    rw [computeCorrelations, if_pos h]
  · have h1 : (completeRows scenarioTable).length = 1 := by decide
    rw [computeCorrelations, h1]
    simp

/-- Witness for C5: the scenario table yields an undefined matrix, while a
table with two complete rows yields the Pearson matrix over those rows. -/
theorem correlations_complete_case_guard_witness :
    computeCorrelations scenarioTable = none ∧
    computeCorrelations twoRowTable =
      some (fun i j => pearson (corrCol twoRowTable i) (corrCol twoRowTable j)) :=
  ⟨(correlations_complete_case_guard scenarioTable).2.2.2,
   (correlations_complete_case_guard twoRowTable).2.1 (by decide)⟩

/-- C6: on malformed/empty input (no rows, or no price columns) the
one-shot pipeline aborts with an error (`max()` of the empty stats dict,
the uncaught `ValueError` of line 124) before the report file write of
lines 239–240 is reached: no report is ever produced for such input. -/
theorem empty_input_is_fatal (t : MarketTable) (tstr fileTs : String)
    (h : t.rows = [] ∨ t.tickers = []) :
    generate_report_once t tstr fileTs = Except.error "max() arg is an empty sequence" := by
  have hs : computeStats t = [] := computeStats_empty_of_degenerate t h
  rw [generate_report_once, generate_markdown_report, hs]
  rfl

/-- Witness for C6: a table with a price column but no rows. -/
theorem empty_input_is_fatal_witness :
    generate_report_once ⟨["A"], []⟩ "2026-01-01 00:00:00" "20260101_000000" =
      Except.error "max() arg is an empty sequence" :=
  empty_input_is_fatal ⟨["A"], []⟩ "2026-01-01 00:00:00" "20260101_000000" (Or.inl rfl)

/-- C9: the watch loop never generates two reports less than the minimum
report interval (60 s) apart — after a report at time `t₀`, the guard
`current_time - last_report_time >= report_interval` blocks any further
report before `t₀ + 60`, so a file growing twice inside one interval
produces exactly one report, fired at the first tick whose growth check
succeeds once the interval has elapsed (the second conjunct is that
trigger condition). -/
theorem watch_minimum_report_interval :
    (∀ obs : List (ℚ × ℕ),
      List.Pairwise (fun a b => a + 60 ≤ b) (reportTimes 60 watchInit obs)) ∧
    (∀ (s : WatchState) (now : ℚ) (size : ℕ),
      (watchStep 60 s now size).2 = true ↔
        (s.last_size < size ∧ 60 ≤ now - s.last_report_time)) := by
  constructor
  · intro obs
    exact reportTimes_pairwise 60 (by norm_num) obs watchInit
  · intro s now size
    by_cases h : s.last_size < size ∧ 60 ≤ now - s.last_report_time
    · simp [watchStep, h]
    · simp [watchStep, h]

lemma mkStats_std (prices : List ℚ) : (mkStats prices).std = sampleStd prices := rfl

lemma mkStats_current (prices : List ℚ) :
    (mkStats prices).current = FVal.fin ((prices.getLastD 0 : ℚ) : ℝ) := rfl

lemma mkStats_pct (prices : List ℚ) :
    (mkStats prices).pct_change =
      fmul (fdiv (fsub (FVal.fin ((prices.getLastD 0 : ℚ) : ℝ))
        (FVal.fin ((prices.headD 0 : ℚ) : ℝ))) (FVal.fin ((prices.headD 0 : ℚ) : ℝ)))
        (FVal.fin 100) := rfl

lemma fsub_fin_fin (a b : ℝ) : fsub (FVal.fin a) (FVal.fin b) = FVal.fin (a - b) := by
  simp [fsub, fadd, fneg, sub_eq_add_neg]

lemma fdiv_fin_fin (a b : ℝ) (hb : b ≠ 0) :
    fdiv (FVal.fin a) (FVal.fin b) = FVal.fin (a / b) := by
  simp [fdiv, hb]

lemma fdiv_fin_zero_nan : fdiv (FVal.fin 0) (FVal.fin 0) = FVal.nan := by
  simp [fdiv]

lemma fdiv_fin_zero_pos (a : ℝ) (ha : 0 < a) :
    fdiv (FVal.fin a) (FVal.fin 0) = FVal.pinf := by
  simp [fdiv, ha, ha.ne']

lemma fdiv_fin_zero_neg (a : ℝ) (ha : a < 0) :
    fdiv (FVal.fin a) (FVal.fin 0) = FVal.ninf := by
  simp [fdiv, ha.ne, not_lt.mpr ha.le]

lemma fmul_fin_fin (a b : ℝ) : fmul (FVal.fin a) (FVal.fin b) = FVal.fin (a * b) := rfl

lemma fmul_nan_left (x : FVal) : fmul FVal.nan x = FVal.nan := by
  cases x <;> rfl

lemma fmul_pinf_fin_pos (b : ℝ) (hb : 0 < b) : fmul FVal.pinf (FVal.fin b) = FVal.pinf := by
  simp [fmul, hb, hb.ne']

lemma fmul_ninf_fin_pos (b : ℝ) (hb : 0 < b) : fmul FVal.ninf (FVal.fin b) = FVal.ninf := by
  simp [fmul, hb, hb.ne']

lemma computeStatsAux_mem (t : MarketTable) :
    ∀ (rest : List String) (j0 k : ℕ) (hk : k < rest.length),
      dropnaCol t (j0 + k) ≠ [] →
      (rest.get ⟨k, hk⟩, mkStats (dropnaCol t (j0 + k))) ∈ computeStatsAux t j0 rest := by
  intro rest
  induction rest with
  | nil =>
      intro j0 k hk
      simp at hk
  | cons tkr rest ih =>
      intro j0 k hk hne
      cases k with
      | zero =>
          have hie : (dropnaCol t j0).isEmpty = false := by
            simpa [List.isEmpty_eq_false] using (by simpa using hne : dropnaCol t j0 ≠ [])
          simp only [computeStatsAux, hie, List.get, List.mem_append]
          left
          simp
      | succ k' =>
          have harr : j0 + 1 + k' = j0 + (k' + 1) := by omega
          have hk' : k' < rest.length := by simpa using Nat.lt_of_succ_lt_succ hk
          have hmem := ih (j0 + 1) k' hk' (by rw [harr]; exact hne)
          rw [harr] at hmem
          simp only [computeStatsAux, List.get, List.mem_append]
          right
          exact hmem

lemma computeStats_mem (t : MarketTable) (j : ℕ) (hj : j < t.tickers.length)
    (hne : dropnaCol t j ≠ []) :
    (t.tickers.get ⟨j, hj⟩, mkStats (dropnaCol t j)) ∈ computeStats t := by
  have := computeStatsAux_mem t t.tickers 0 j hj (by simpa using hne)
  simpa using this

/-- A one-symbol table whose rows are not in ascending timestamp order. -/
def unsortedTable : MarketTable := ⟨["A"], [⟨2, [some 10]⟩, ⟨1, [some 20]⟩]⟩

/-- A one-symbol table whose rows are sorted ascending by timestamp. -/
def sortedTable : MarketTable := ⟨["A"], [⟨1, [some 3]⟩, ⟨2, [some 7]⟩]⟩

/-- A one-symbol table with a single (non-zero) price. -/
def singleTable : MarketTable := ⟨["A"], [⟨0, [some 5]⟩]⟩

/-- A one-symbol table whose first non-missing price is 0 and whose last is
10. -/
def zeroFirstTable : MarketTable := ⟨["A"], [⟨0, [some 0]⟩, ⟨1, [some 10]⟩]⟩

/-- C1 counterexample: on a table whose rows are NOT sorted by timestamp
(`analyze_data` never sorts), `current` is the last non-missing value in
file row order (20), not the last in ascending-timestamp order (10). -/
theorem current_not_timestamp_order_counterexample :
    ((unsortedTable.tickers.get ⟨0, by decide⟩, mkStats (dropnaCol unsortedTable 0)) ∈
        computeStats unsortedTable) ∧
    (mkStats (dropnaCol unsortedTable 0)).current = FVal.fin ((20 : ℚ) : ℝ) ∧
    specLastInTsOrder unsortedTable 0 = 10 ∧
    (mkStats (dropnaCol unsortedTable 0)).current ≠
      FVal.fin ((specLastInTsOrder unsortedTable 0 : ℚ) : ℝ) := by
  have hd : dropnaCol unsortedTable 0 = [10, 20] := by decide
  have hspec : specLastInTsOrder unsortedTable 0 = 10 := by decide
  have hlast : ([10, 20] : List ℚ).getLastD 0 = 20 := by decide
  refine ⟨computeStats_mem unsortedTable 0 (by decide) (by rw [hd]; simp), ?_, hspec, ?_⟩
  · rw [mkStats_current, hd, hlast]
  · rw [mkStats_current, hd, hlast, hspec]
    intro h
    have h2 : ((20 : ℚ) : ℝ) = ((10 : ℚ) : ℝ) := by injection h
    norm_num at h2

/-- C1 (amended): `current` equals the last non-missing value of the
column in input row order — the code performs no timestamp sort — and this
coincides with the last value in ascending-timestamp order exactly when the
input rows already arrive sorted ascending by timestamp. -/
theorem current_is_last_nonmissing (t : MarketTable) (j : ℕ)
    (hj : j < t.tickers.length) (hne : dropnaCol t j ≠ []) :
    ((t.tickers.get ⟨j, hj⟩, mkStats (dropnaCol t j)) ∈ computeStats t) ∧
    (mkStats (dropnaCol t j)).current = FVal.fin (((dropnaCol t j).getLastD 0 : ℚ) : ℝ) ∧
    (List.Sorted (fun a b => a.ts ≤ b.ts) t.rows →
      (dropnaCol t j).getLastD 0 = specLastInTsOrder t j) := by
  refine ⟨computeStats_mem t j hj hne, mkStats_current _, ?_⟩
  intro hs
  rw [specLastInTsOrder, List.Sorted.insertionSort_eq hs]

/-- Witness for C1 (amended): a sorted two-row table, where the row-order
last value and the timestamp-order last value agree. -/
theorem current_is_last_nonmissing_witness :
    ((sortedTable.tickers.get ⟨0, by decide⟩, mkStats (dropnaCol sortedTable 0)) ∈
        computeStats sortedTable) ∧
    (dropnaCol sortedTable 0).getLastD 0 = specLastInTsOrder sortedTable 0 :=
  ⟨(current_is_last_nonmissing sortedTable 0 (by decide) (by decide)).1,
   (current_is_last_nonmissing sortedTable 0 (by decide) (by decide)).2.2 (by decide)⟩

/-- C2 counterexample: a symbol with exactly one non-missing value (5) gets
`std = NaN` (pandas sample standard deviation with `ddof = 1`), not the
claimed `std = 0`. -/
theorem single_point_std_counterexample :
    ((singleTable.tickers.get ⟨0, by decide⟩, mkStats (dropnaCol singleTable 0)) ∈
        computeStats singleTable) ∧
    dropnaCol singleTable 0 = [5] ∧
    (mkStats (dropnaCol singleTable 0)).std = FVal.nan ∧
    FVal.nan ≠ FVal.fin 0 := by
  have hd : dropnaCol singleTable 0 = [5] := by decide
  refine ⟨computeStats_mem singleTable 0 (by decide) (by rw [hd]; simp), hd, ?_, ?_⟩
  · rw [mkStats_std, hd]
    rfl
  · intro h
    exact FVal.noConfusion h

/-- C2 (amended): a series with exactly one non-missing value `v` yields
`std = NaN` (sample standard deviation, `ddof = 1`, is undefined for one
point) and `pct_change = 0` when `v ≠ 0` but `pct_change = NaN` when
`v = 0` (`0/0`). -/
theorem single_point_stats (t : MarketTable) (j : ℕ) (v : ℚ)
    (h : dropnaCol t j = [v]) :
    (mkStats (dropnaCol t j)).std = FVal.nan ∧
    (v ≠ 0 → (mkStats (dropnaCol t j)).pct_change = FVal.fin 0) ∧
    (v = 0 → (mkStats (dropnaCol t j)).pct_change = FVal.nan) := by
  rw [h]
  refine ⟨by rw [mkStats_std]; rfl, ?_, ?_⟩
  · intro hv
    have hvr : ((v : ℚ) : ℝ) ≠ 0 := by exact_mod_cast hv
    have hl : ([v] : List ℚ).getLastD 0 = v := by simp
    have hh : ([v] : List ℚ).headD 0 = v := by simp
    rw [mkStats_pct, hl, hh]
    rw [fsub_fin_fin, sub_self, fdiv_fin_fin _ _ hvr, zero_div, fmul_fin_fin, zero_mul]
  · intro hv
    subst hv
    have hl : ([0] : List ℚ).getLastD 0 = 0 := by simp
    have hh : ([0] : List ℚ).headD 0 = 0 := by simp
    rw [mkStats_pct, hl, hh]
    simp only [Rat.cast_zero]
    rw [fsub_fin_fin, sub_self, fdiv_fin_zero_nan, fmul_nan_left]

/-- Witness for C2 (amended): the single-value table with value 5. -/
theorem single_point_stats_witness :
    (mkStats (dropnaCol singleTable 0)).std = FVal.nan ∧
    (mkStats (dropnaCol singleTable 0)).pct_change = FVal.fin 0 :=
  ⟨(single_point_stats singleTable 0 5 (by decide)).1,
   (single_point_stats singleTable 0 5 (by decide)).2.1 (by decide)⟩

/-- C3 counterexample: with first non-missing value 0 and last value 10,
`pct_change` is `+inf` (IEEE `10/0`), which is neither NaN nor omitted —
the symbol's stats entry is present — refuting the claimed "NaN/omitted
iff first value is 0". -/
theorem pct_change_zero_first_counterexample :
    ((zeroFirstTable.tickers.get ⟨0, by decide⟩, mkStats (dropnaCol zeroFirstTable 0)) ∈
        computeStats zeroFirstTable) ∧
    (dropnaCol zeroFirstTable 0).headD 0 = 0 ∧
    (mkStats (dropnaCol zeroFirstTable 0)).pct_change = FVal.pinf ∧
    FVal.pinf ≠ FVal.nan := by
  have hd : dropnaCol zeroFirstTable 0 = [0, 10] := by decide
  have hl : ([0, 10] : List ℚ).getLastD 0 = 10 := by decide
  have hh : ([0, 10] : List ℚ).headD 0 = 0 := by decide
  refine ⟨computeStats_mem zeroFirstTable 0 (by decide) (by rw [hd]; simp), ?_, ?_, ?_⟩
  · rw [hd, hh]
  · rw [hd, mkStats_pct, hl, hh]
    simp only [Rat.cast_zero, Rat.cast_ofNat]
    rw [fsub_fin_fin, sub_zero, fdiv_fin_zero_pos 10 (by norm_num),
      fmul_pinf_fin_pos 100 (by norm_num)]
  · intro h
    exact FVal.noConfusion h

/-- C3 (amended): for a non-empty series, `pct_change` is NaN iff both the
first and the last non-missing values are 0 (`0/0`); when the first value
is 0 and the last is not, it is a signed infinity (not NaN, not omitted);
when the first value is non-zero it equals `(last - first) / first * 100`
exactly.  Every case is a total computation: the zero denominator never
raises a division-by-zero error. -/
theorem pct_change_formula (prices : List ℚ) (hne : prices ≠ []) :
    (prices.headD 0 ≠ 0 →
      (mkStats prices).pct_change =
        FVal.fin ((((prices.getLastD 0 : ℚ) : ℝ) - ((prices.headD 0 : ℚ) : ℝ)) /
          ((prices.headD 0 : ℚ) : ℝ) * 100)) ∧
    (prices.headD 0 = 0 → prices.getLastD 0 = 0 →
      (mkStats prices).pct_change = FVal.nan) ∧
    (prices.headD 0 = 0 → 0 < prices.getLastD 0 →
      (mkStats prices).pct_change = FVal.pinf) ∧
    (prices.headD 0 = 0 → prices.getLastD 0 < 0 →
      (mkStats prices).pct_change = FVal.ninf) := by
  refine ⟨?_, ?_, ?_, ?_⟩
  · intro hf
    have hfr : ((prices.headD 0 : ℚ) : ℝ) ≠ 0 := by exact_mod_cast hf
    rw [mkStats_pct, fsub_fin_fin, fdiv_fin_fin _ _ hfr, fmul_fin_fin]
  · intro hf hl
    rw [mkStats_pct, hf, hl]
    simp only [Rat.cast_zero]
    rw [fsub_fin_fin, sub_self, fdiv_fin_zero_nan, fmul_nan_left]
  · intro hf hl
    have hlr : (0 : ℝ) < ((prices.getLastD 0 : ℚ) : ℝ) := by exact_mod_cast hl
    rw [mkStats_pct, hf]
    simp only [Rat.cast_zero]
    rw [fsub_fin_fin, sub_zero, fdiv_fin_zero_pos _ hlr,
      fmul_pinf_fin_pos 100 (by norm_num)]
  · intro hf hl
    have hlr : ((prices.getLastD 0 : ℚ) : ℝ) < 0 := by exact_mod_cast hl
    rw [mkStats_pct, hf]
    simp only [Rat.cast_zero]
    rw [fsub_fin_fin, sub_zero, fdiv_fin_zero_neg _ hlr,
      fmul_ninf_fin_pos 100 (by norm_num)]

/-- Witness for C3 (amended): the non-zero-first series `[1, 3]` of
`twoRowTable` gives the exact formula, and the `[0, 0]` series gives NaN. -/
theorem pct_change_formula_witness :
    (mkStats (dropnaCol twoRowTable 0)).pct_change =
      FVal.fin (((((dropnaCol twoRowTable 0).getLastD 0 : ℚ) : ℝ) -
        (((dropnaCol twoRowTable 0).headD 0 : ℚ) : ℝ)) /
        (((dropnaCol twoRowTable 0).headD 0 : ℚ) : ℝ) * 100) ∧
    (mkStats ([0, 0] : List ℚ)).pct_change = FVal.nan :=
  ⟨(pct_change_formula (dropnaCol twoRowTable 0) (by decide)).1 (by decide),
   (pct_change_formula ([0, 0] : List ℚ) (by decide)).2.1 (by decide) (by decide)⟩

/-- First four characters of a line (enough to separate every fixed line
shape of the report from a `### <ticker>` subsection header and from the
`## Correlation Analysis` header). -/
def pfx4 (s : String) : List Char := s.data.take 4

lemma pfx4_ticker_header (tkr : String) : pfx4 ("### " ++ tkr) = ['#', '#', '#', ' '] := rfl

lemma str_append_left_cancel (p a b : String) (h : p ++ a = p ++ b) : a = b := by
  have hd := congrArg String.data h
  simp only [String.data_append] at hd
  have h2 := List.append_cancel_left hd
  cases a
  cases b
  exact congrArg String.mk h2

/-- Possible 4-character prefixes of header-block lines. -/
def hdrPfx : List (List Char) :=
  [['#', ' ', 'M', 'a'], ['*', '*', 'G', 'e'], ['*', '*', 'D', 'a'], ['*', '*', 'D', 'u'],
   [], ['-', '-', '-']]

lemma headerLines_pfx (t : MarketTable) (tstr : String) :
    ∀ x ∈ headerLines t tstr, pfx4 x ∈ hdrPfx := by
  intro x hx
  simp only [headerLines, List.mem_cons, List.not_mem_nil, or_false] at hx
  rcases hx with rfl | rfl | rfl | rfl | rfl | rfl | rfl | rfl
  · exact (by decide : (['#', ' ', 'M', 'a'] : List Char) ∈ hdrPfx)
  · exact (by decide : (['*', '*', 'G', 'e'] : List Char) ∈ hdrPfx)
  · exact (by decide : (['*', '*', 'D', 'a'] : List Char) ∈ hdrPfx)
  · exact (by decide : (['*', '*', 'D', 'a'] : List Char) ∈ hdrPfx)
  · exact (by decide : (['*', '*', 'D', 'u'] : List Char) ∈ hdrPfx)
  · exact (by decide : (([] : List Char)) ∈ hdrPfx)
  · exact (by decide : (['-', '-', '-'] : List Char) ∈ hdrPfx)
  · exact (by decide : (([] : List Char)) ∈ hdrPfx)

/-- Possible 4-character prefixes of executive-summary lines. -/
def execPfx : List (List Char) :=
  [['#', '#', ' ', 'E'], [], ['-', ' ', '*', '*'], ['-', '-', '-']]

lemma execLines_pfx (stats : List (String × SymbolStats)) :
    ∀ x ∈ execLines stats, pfx4 x ∈ execPfx := by
  intro x hx
  cases stats with
  | nil => simp [execLines] at hx
  | cons e rest =>
      simp only [execLines, List.mem_cons, List.not_mem_nil, or_false] at hx
      rcases hx with rfl | rfl | rfl | rfl | rfl | rfl | rfl | rfl
      · exact (by decide : (['#', '#', ' ', 'E'] : List Char) ∈ execPfx)
      · exact (by decide : (([] : List Char)) ∈ execPfx)
      · exact (by decide : (['-', ' ', '*', '*'] : List Char) ∈ execPfx)
      · exact (by decide : (['-', ' ', '*', '*'] : List Char) ∈ execPfx)
      · exact (by decide : (['-', ' ', '*', '*'] : List Char) ∈ execPfx)
      · exact (by decide : (([] : List Char)) ∈ execPfx)
      · exact (by decide : (['-', '-', '-'] : List Char) ∈ execPfx)
      · exact (by decide : (([] : List Char)) ∈ execPfx)

/-- Possible 4-character prefixes of individual-section lines other than
the `### <ticker>` subsection headers. -/
def indPfx : List (List Char) :=
  [['#', '#', ' ', 'I'], [], ['|', ' ', 'M', 'e'], ['|', '-', '-', '-'],
   ['|', ' ', 'C', 'u'], ['|', ' ', 'A', 'v'], ['|', ' ', 'M', 'i'], ['|', ' ', 'M', 'a'],
   ['|', ' ', 'P', 'r'], ['|', ' ', 'S', 't'], ['|', ' ', 'T', 'o'], ['|', ' ', 'V', 'o'],
   ['|', ' ', 'D', 'a'], ['-', '-', '-']]

lemma individualLines_pfx (tickers : List String) (stats : List (String × SymbolStats)) :
    ∀ x ∈ individualLines tickers stats,
      pfx4 x ∈ indPfx ∨
      ∃ tk s, List.lookup tk stats = some s ∧ x = "### " ++ tk := by
  intro x hx
  simp only [individualLines, List.mem_append, List.mem_cons, List.not_mem_nil, or_false,
    List.mem_flatMap] at hx
  rcases hx with ((rfl | rfl) | ⟨tk, htk, hx2⟩) | (rfl | rfl)
  · exact Or.inl (by decide : (['#', '#', ' ', 'I'] : List Char) ∈ indPfx)
  · exact Or.inl (by decide : (([] : List Char)) ∈ indPfx)
  · cases hlk : List.lookup tk stats with
    | none => rw [hlk] at hx2; simp at hx2
    | some s =>
        rw [hlk] at hx2
        simp only [symbolBlock, List.mem_cons, List.not_mem_nil, or_false] at hx2
        rcases hx2 with rfl | rfl | rfl | rfl | rfl | rfl | rfl | rfl | rfl | rfl | rfl | rfl | rfl | rfl | rfl
        · exact Or.inr ⟨tk, s, hlk, rfl⟩
        · exact Or.inl (by decide : (([] : List Char)) ∈ indPfx)
        · exact Or.inl (by decide : (['|', ' ', 'M', 'e'] : List Char) ∈ indPfx)
        · exact Or.inl (by decide : (['|', '-', '-', '-'] : List Char) ∈ indPfx)
        · exact Or.inl (by decide : (['|', ' ', 'C', 'u'] : List Char) ∈ indPfx)
        · exact Or.inl (by decide : (['|', ' ', 'A', 'v'] : List Char) ∈ indPfx)
        · exact Or.inl (by decide : (['|', ' ', 'M', 'e'] : List Char) ∈ indPfx)
        · exact Or.inl (by decide : (['|', ' ', 'M', 'i'] : List Char) ∈ indPfx)
        · exact Or.inl (by decide : (['|', ' ', 'M', 'a'] : List Char) ∈ indPfx)
        · exact Or.inl (by decide : (['|', ' ', 'P', 'r'] : List Char) ∈ indPfx)
        · exact Or.inl (by decide : (['|', ' ', 'S', 't'] : List Char) ∈ indPfx)
        · exact Or.inl (by decide : (['|', ' ', 'T', 'o'] : List Char) ∈ indPfx)
        · exact Or.inl (by decide : (['|', ' ', 'V', 'o'] : List Char) ∈ indPfx)
        · exact Or.inl (by decide : (['|', ' ', 'D', 'a'] : List Char) ∈ indPfx)
        · exact Or.inl (by decide : (([] : List Char)) ∈ indPfx)
  · exact Or.inl (by decide : (['-', '-', '-'] : List Char) ∈ indPfx)
  · exact Or.inl (by decide : (([] : List Char)) ∈ indPfx)

/-- Possible 4-character prefixes of correlation-section lines. -/
def corrPfx : List (List Char) :=
  [['#', '#', ' ', 'C'], [], ['P', 'r', 'i', 'c'], ['-', ' ', '*', '*'], ['*', 'C', 'o', 'r'],
   ['-', '-', '-']]

lemma corrLines_pfx (corr : Option (ℕ → ℕ → FVal)) (tickers : List String) :
    ∀ x ∈ corrLines corr tickers, pfx4 x ∈ corrPfx := by
  intro x hx
  cases corr with
  | none => simp [corrLines] at hx
  | some m =>
      simp only [corrLines, List.mem_append, List.mem_cons, List.not_mem_nil, or_false,
        List.mem_flatMap, List.mem_map] at hx
      rcases hx with ((rfl | rfl | rfl | rfl) | ⟨i, _, k, _, rfl⟩) | (rfl | rfl | rfl | rfl | rfl)
      · exact (by decide : (['#', '#', ' ', 'C'] : List Char) ∈ corrPfx)
      · exact (by decide : (([] : List Char)) ∈ corrPfx)
      · exact (by decide : (['P', 'r', 'i', 'c'] : List Char) ∈ corrPfx)
      · exact (by decide : (([] : List Char)) ∈ corrPfx)
      · exact (by decide : (['-', ' ', '*', '*'] : List Char) ∈ corrPfx)
      · exact (by decide : (([] : List Char)) ∈ corrPfx)
      · exact (by decide : (['*', 'C', 'o', 'r'] : List Char) ∈ corrPfx)
      · exact (by decide : (([] : List Char)) ∈ corrPfx)
      · exact (by decide : (['-', '-', '-'] : List Char) ∈ corrPfx)
      · exact (by decide : (([] : List Char)) ∈ corrPfx)

/-- Possible 4-character prefixes of market-insights lines. -/
def insPfx : List (List Char) :=
  [['#', '#', ' ', 'M'], [], ['*', '*', 'O', 'v'], ['*', '*', 'A', 'v'], ['*', '*', 'M', 'a'],
   ['-', '-', '-']]

lemma insightLines_pfx (stats : List (String × SymbolStats)) :
    ∀ x ∈ insightLines stats, pfx4 x ∈ insPfx := by
  intro x hx
  simp only [insightLines, List.mem_cons, List.not_mem_nil, or_false] at hx
  rcases hx with rfl | rfl | rfl | rfl | rfl | rfl | rfl | rfl | rfl | rfl
  · exact (by decide : (['#', '#', ' ', 'M'] : List Char) ∈ insPfx)
  · exact (by decide : (([] : List Char)) ∈ insPfx)
  · exact (by decide : (['*', '*', 'O', 'v'] : List Char) ∈ insPfx)
  · exact (by decide : (['*', '*', 'A', 'v'] : List Char) ∈ insPfx)
  · exact (by decide : (([] : List Char)) ∈ insPfx)
  · exact (by decide : (['*', '*', 'M', 'a'] : List Char) ∈ insPfx)
  · exact (by decide : (['*', '*', 'A', 'v'] : List Char) ∈ insPfx)
  · exact (by decide : (([] : List Char)) ∈ insPfx)
  · exact (by decide : (['-', '-', '-'] : List Char) ∈ insPfx)
  · exact (by decide : (([] : List Char)) ∈ insPfx)

/-- Possible 4-character prefixes of footer lines. -/
def ftrPfx : List (List Char) :=
  [['#', '#', ' ', 'D'], [], ['-', ' ', '*', '*'], ['*', 'T', 'h', 'i']]

lemma footerLines_pfx (t : MarketTable) (tickers : List String) (tstr : String) :
    ∀ x ∈ footerLines t tickers tstr, pfx4 x ∈ ftrPfx := by
  intro x hx
  simp only [footerLines, List.mem_cons, List.not_mem_nil, or_false] at hx
  rcases hx with rfl | rfl | rfl | rfl | rfl | rfl | rfl
  · exact (by decide : (['#', '#', ' ', 'D'] : List Char) ∈ ftrPfx)
  · exact (by decide : (([] : List Char)) ∈ ftrPfx)
  · exact (by decide : (['-', ' ', '*', '*'] : List Char) ∈ ftrPfx)
  · exact (by decide : (['-', ' ', '*', '*'] : List Char) ∈ ftrPfx)
  · exact (by decide : (['-', ' ', '*', '*'] : List Char) ∈ ftrPfx)
  · exact (by decide : (([] : List Char)) ∈ ftrPfx)
  · exact (by decide : (['*', 'T', 'h', 'i'] : List Char) ∈ ftrPfx)

lemma gmr_ok_lines (t : MarketTable) (stats : List (String × SymbolStats))
    (corr : Option (ℕ → ℕ → FVal)) (tickers : List String) (tstr : String)
    (lines : List String)
    (h : generate_markdown_report t stats corr tickers tstr = Except.ok lines) :
    lines = headerLines t tstr ++ execLines stats ++ individualLines tickers stats
      ++ corrLines corr tickers ++ insightLines stats ++ footerLines t tickers tstr := by
  rw [generate_markdown_report] at h
  by_cases he : stats.isEmpty = true
  · rw [if_pos he] at h
    exact absurd h (by simp)
  · rw [if_neg he] at h
    injection h with h
    exact h.symm

lemma gmr_no_ticker_header (t : MarketTable) (stats : List (String × SymbolStats))
    (corr : Option (ℕ → ℕ → FVal)) (tickers : List String) (tstr tkr : String)
    (hlk : List.lookup tkr stats = none) (lines : List String)
    (hok : generate_markdown_report t stats corr tickers tstr = Except.ok lines) :
    ("### " ++ tkr) ∉ lines := by
  intro hmem
  rw [gmr_ok_lines t stats corr tickers tstr lines hok] at hmem
  simp only [List.mem_append] at hmem
  rcases hmem with ((((hm | hm) | hm) | hm) | hm) | hm
  · have hp := headerLines_pfx t tstr _ hm
    rw [pfx4_ticker_header] at hp
    exact absurd hp (by decide)
  · have hp := execLines_pfx stats _ hm
    rw [pfx4_ticker_header] at hp
    exact absurd hp (by decide)
  · rcases individualLines_pfx tickers stats _ hm with hp | ⟨tk, s, hlk2, heq⟩
    · rw [pfx4_ticker_header] at hp
      exact absurd hp (by decide)
    · have htk : tkr = tk := str_append_left_cancel "### " tkr tk heq
      rw [← htk, hlk] at hlk2
      exact Option.noConfusion hlk2
  · have hp := corrLines_pfx corr tickers _ hm
    rw [pfx4_ticker_header] at hp
    exact absurd hp (by decide)
  · have hp := insightLines_pfx stats _ hm
    rw [pfx4_ticker_header] at hp
    exact absurd hp (by decide)
  · have hp := footerLines_pfx t tickers tstr _ hm
    rw [pfx4_ticker_header] at hp
    exact absurd hp (by decide)

lemma gmr_no_corr_section (t : MarketTable) (stats : List (String × SymbolStats))
    (tickers : List String) (tstr : String) (lines : List String)
    (hok : generate_markdown_report t stats none tickers tstr = Except.ok lines) :
    "## Correlation Analysis" ∉ lines := by
  intro hmem
  rw [gmr_ok_lines t stats none tickers tstr lines hok] at hmem
  simp only [List.mem_append] at hmem
  rcases hmem with ((((hm | hm) | hm) | hm) | hm) | hm
  · exact absurd (headerLines_pfx t tstr _ hm) (by decide)
  · exact absurd (execLines_pfx stats _ hm) (by decide)
  · rcases individualLines_pfx tickers stats _ hm with hp | ⟨tk, s, _, heq⟩
    · exact absurd hp (by decide)
    · have hp := congrArg pfx4 heq
      rw [pfx4_ticker_header] at hp
      exact absurd hp (by decide)
  · simp [corrLines] at hm
  · exact absurd (insightLines_pfx stats _ hm) (by decide)
  · exact absurd (footerLines_pfx t tickers tstr _ hm) (by decide)

lemma computeStatsAux_not_mem (t : MarketTable) (tkr : String) :
    ∀ (rest : List String) (j0 : ℕ),
      (∀ k, (hk : k < rest.length) → rest.get ⟨k, hk⟩ = tkr → dropnaCol t (j0 + k) = []) →
      ∀ s, (tkr, s) ∉ computeStatsAux t j0 rest := by
  intro rest
  induction rest with
  | nil => intro j0 _ s hmem; simp [computeStatsAux] at hmem
  | cons hd rest ih =>
      intro j0 hall s hmem
      simp only [computeStatsAux, List.mem_append] at hmem
      rcases hmem with hm | hm
      · by_cases hhd : hd = tkr
        · have hdn : dropnaCol t (j0 + 0) = [] := hall 0 (by simp) hhd
          rw [Nat.add_zero] at hdn
          rw [hdn] at hm
          simp at hm
        · by_cases hie : (dropnaCol t j0).isEmpty = true
          · rw [if_pos hie] at hm
            simp at hm
          · rw [if_neg hie] at hm
            simp only [List.mem_singleton, Prod.mk.injEq] at hm
            exact hhd (hm.1.symm)
      · exact ih (j0 + 1)
          (fun k hk heq => by
            have h2 := hall (k + 1) (by simpa using Nat.succ_lt_succ hk) (by simpa using heq)
            have harr : j0 + (k + 1) = j0 + 1 + k := by omega
            rw [harr] at h2
            exact h2) s hm

lemma lookup_eq_none_of_not_mem (l : List (String × SymbolStats)) (k : String)
    (h : ∀ s, (k, s) ∉ l) : List.lookup k l = none := by
  induction l with
  | nil => rfl
  | cons e rest ih =>
      have hk : k ≠ e.1 := by
        intro hke
        exact h e.2 (by rw [show (k, e.2) = e from Prod.ext hke rfl]; exact List.mem_cons_self e rest)
      simp only [List.lookup, beq_eq_false_iff_ne.mpr hk]
      exact ih (fun s hs => h s (List.mem_cons_of_mem e hs))

/-- A table in which column B is entirely missing while column A has data. -/
def missingColTable : MarketTable :=
  ⟨["A", "B"], [⟨1, [some 2, none]⟩, ⟨2, [some 3, none]⟩]⟩

/-- A three-symbol table in which symbols A and B share two non-missing
rows while column C is entirely missing. -/
def missingThirdTable : MarketTable :=
  ⟨["A", "B", "C"], [⟨1, [some 1, some 2, none]⟩, ⟨2, [some 3, some 4, none]⟩]⟩

/-- C7: a symbol whose price column is entirely missing is excluded from
the stats dict (not an error), and the renderer never emits a `###`
per-symbol subsection (and hence none of its table rows) for any symbol
absent from the stats dict. -/
theorem missing_symbol_excluded (t : MarketTable) (tkr : String)
    (hmiss : ∀ k, (hk : k < t.tickers.length) →
      t.tickers.get ⟨k, hk⟩ = tkr → dropnaCol t k = []) :
    (∀ s, (tkr, s) ∉ computeStats t) ∧
    List.lookup tkr (computeStats t) = none ∧
    (∀ (stats : List (String × SymbolStats)) (corr : Option (ℕ → ℕ → FVal))
        (tickers : List String) (tstr : String) (lines : List String),
      List.lookup tkr stats = none →
      generate_markdown_report t stats corr tickers tstr = Except.ok lines →
      ("### " ++ tkr) ∉ lines) := by
  have hnm : ∀ s, (tkr, s) ∉ computeStats t := by
    intro s
    exact computeStatsAux_not_mem t tkr t.tickers 0
      (fun k hk heq => by simpa using hmiss k hk heq) s
  refine ⟨hnm, lookup_eq_none_of_not_mem _ _ hnm, ?_⟩
  intro stats corr tickers tstr lines hlk hok
  exact gmr_no_ticker_header t stats corr tickers tstr tkr hlk lines hok

/-- Witness for C7: in `missingColTable`, symbol B (entirely missing
column) is absent from the stats dict and the rendered report has no
`### B` subsection. -/
theorem missing_symbol_excluded_witness :
    List.lookup "B" (computeStats missingColTable) = none ∧
    ("### " ++ "B") ∉
      (headerLines missingColTable "T" ++ execLines (computeStats missingColTable)
        ++ individualLines missingColTable.tickers (computeStats missingColTable)
        ++ corrLines (computeCorrelations missingColTable) missingColTable.tickers
        ++ insightLines (computeStats missingColTable)
        ++ footerLines missingColTable missingColTable.tickers "T") :=
  ⟨(missing_symbol_excluded missingColTable "B" (by decide)).2.1,
   (missing_symbol_excluded missingColTable "B" (by decide)).2.2
     (computeStats missingColTable) (computeCorrelations missingColTable)
     missingColTable.tickers "T" _
     (missing_symbol_excluded missingColTable "B" (by decide)).2.1 rfl⟩

/-- C10: if some price column is entirely missing (and the table is
non-empty), the complete-case row set is empty, so the correlation matrix
is `None` and the rendered report contains no `## Correlation Analysis`
section at all — regardless of how many overlapping rows other symbol
pairs share. -/
theorem missing_column_kills_correlations (t : MarketTable) (j : ℕ)
    (hj : j < t.tickers.length) (hmiss : dropnaCol t j = []) (hrows : t.rows ≠ []) :
    completeRows t = [] ∧
    computeCorrelations t = none ∧
    (∀ (stats : List (String × SymbolStats)) (tstr : String) (lines : List String),
      generate_markdown_report t stats (computeCorrelations t) t.tickers tstr =
        Except.ok lines →
      "## Correlation Analysis" ∉ lines) := by
  have hnone : ∀ r ∈ t.rows, r.prices.getD j none = none := by
    simpa [dropnaCol, List.filterMap_eq_nil_iff] using hmiss
  have hcr : completeRows t = [] := by
    rw [completeRows, List.filter_eq_nil_iff]
    intro r hr hcomp
    have hall := List.all_eq_true.mp hcomp j (List.mem_range.mpr hj)
    rw [hnone r hr] at hall
    simp at hall
  have hc : computeCorrelations t = none := by
    rw [computeCorrelations, if_neg]
    rw [hcr]
    simp
  refine ⟨hcr, hc, ?_⟩
  intro stats tstr lines hok
  rw [hc] at hok
  exact gmr_no_corr_section t stats t.tickers tstr lines hok

/-- Witness for C10: in `missingThirdTable`, symbols A and B share two
complete rows of their own, yet column C being entirely missing empties the
complete-case set, so the correlation matrix is undefined and the report
for that table has no correlation section. -/
theorem missing_column_kills_correlations_witness :
    completeRows missingThirdTable = [] ∧
    computeCorrelations missingThirdTable = none ∧
    "## Correlation Analysis" ∉
      (headerLines missingThirdTable "T" ++ execLines (computeStats missingThirdTable)
        ++ individualLines missingThirdTable.tickers (computeStats missingThirdTable)
        ++ corrLines (computeCorrelations missingThirdTable) missingThirdTable.tickers
        ++ insightLines (computeStats missingThirdTable)
        ++ footerLines missingThirdTable missingThirdTable.tickers "T") :=
  ⟨(missing_column_kills_correlations missingThirdTable 2 (by decide) (by decide)
      (List.cons_ne_nil _ _)).1,
   (missing_column_kills_correlations missingThirdTable 2 (by decide) (by decide)
      (List.cons_ne_nil _ _)).2.1,
   (missing_column_kills_correlations missingThirdTable 2 (by decide) (by decide)
      (List.cons_ne_nil _ _)).2.2 (computeStats missingThirdTable) "T" _ rfl⟩

/-- C8: the renderer is deterministic — it is a pure function of the
table, the stats dict, the correlation matrix, the ticker list and the
(fixed) generation timestamp, so two runs on identical inputs produce
byte-identical markdown. -/
theorem renderer_deterministic (t t' : MarketTable)
    (stats stats' : List (String × SymbolStats)) (corr corr' : Option (ℕ → ℕ → FVal))
    (tickers tickers' : List String) (tstr tstr' : String)
    (ht : t = t') (hs : stats = stats') (hc : corr = corr')
    (hk : tickers = tickers') (hts : tstr = tstr') :
    reportString t stats corr tickers tstr = reportString t' stats' corr' tickers' tstr' := by
  subst ht hs hc hk hts
  rfl

/-- Witness for C8: two renders of the scenario data with the same fixed
timestamp agree. -/
theorem renderer_deterministic_witness :
    reportString scenarioTable (computeStats scenarioTable)
        (computeCorrelations scenarioTable) scenarioTable.tickers "2026-01-30 16:45:20" =
      reportString scenarioTable (computeStats scenarioTable)
        (computeCorrelations scenarioTable) scenarioTable.tickers "2026-01-30 16:45:20" :=
  renderer_deterministic scenarioTable scenarioTable (computeStats scenarioTable)
    (computeStats scenarioTable) (computeCorrelations scenarioTable)
    (computeCorrelations scenarioTable) scenarioTable.tickers scenarioTable.tickers
    "2026-01-30 16:45:20" "2026-01-30 16:45:20" rfl rfl rfl rfl rfl

/-- C4: the rendered trend label is determined by the mean per-symbol
percent-change through the ladder `>1 → Bullish`, `(0,1] → Slightly
Bullish`, `(-1,0] → Slightly Bearish`, `≤-1 → Bearish`, and the volatility
label by the mean per-symbol volatility through `>3 → High`,
`(1.5,3] → Moderate`, `≤1.5 → Low`; in particular a mean percent-change of
2.5 is classified Bullish and a mean volatility of 2.0 Moderate, and the
report's Market Insights section carries exactly these labels applied to
`np.mean` of the per-symbol values. -/
theorem trend_volatility_ladder (q r : ℝ) (t : MarketTable)
    (stats : List (String × SymbolStats)) (corr : Option (ℕ → ℕ → FVal))
    (tickers : List String) (tstr : String) (lines : List String) :
    (trendLabel (FVal.fin q) = "📈 **Bullish** - Market showing strong upward momentum" ↔ 1 < q) ∧
    (trendLabel (FVal.fin q) = "↗️ **Slightly Bullish** - Market trending upward" ↔ (0 < q ∧ q ≤ 1)) ∧
    (trendLabel (FVal.fin q) = "↘️ **Slightly Bearish** - Market trending downward" ↔ (-1 < q ∧ q ≤ 0)) ∧
    (trendLabel (FVal.fin q) = "📉 **Bearish** - Market showing downward pressure" ↔ q ≤ -1) ∧
    (volLabel (FVal.fin r) = "⚠️ **High Volatility** - Significant price swings" ↔ 3 < r) ∧
    (volLabel (FVal.fin r) = "📊 **Moderate Volatility** - Normal market fluctuations" ↔
      (3 / 2 < r ∧ r ≤ 3)) ∧
    (volLabel (FVal.fin r) = "✅ **Low Volatility** - Stable price action" ↔ r ≤ 3 / 2) ∧
    trendLabel (FVal.fin (5 / 2)) = "📈 **Bullish** - Market showing strong upward momentum" ∧
    volLabel (FVal.fin 2) = "📊 **Moderate Volatility** - Normal market fluctuations" ∧
    (generate_markdown_report t stats corr tickers tstr = Except.ok lines →
      ("**Overall Market Trend:** " ++
        trendLabel (npMean (stats.map (fun p => p.2.pct_change)))) ∈ lines ∧
      ("**Market Volatility:** " ++
        volLabel (npMean (stats.map (fun p => p.2.volatility)))) ∈ lines) := by
  have htrend :
      (trendLabel (FVal.fin q) = "📈 **Bullish** - Market showing strong upward momentum" ↔ 1 < q) ∧
      (trendLabel (FVal.fin q) = "↗️ **Slightly Bullish** - Market trending upward" ↔ (0 < q ∧ q ≤ 1)) ∧
      (trendLabel (FVal.fin q) = "↘️ **Slightly Bearish** - Market trending downward" ↔ (-1 < q ∧ q ≤ 0)) ∧
      (trendLabel (FVal.fin q) = "📉 **Bearish** - Market showing downward pressure" ↔ q ≤ -1) := by
    rcases le_or_lt q (-1) with h1 | h1
    · have hl : trendLabel (FVal.fin q) = "📉 **Bearish** - Market showing downward pressure" := by
        rw [trendLabel,
          if_neg (show ¬ fgt (FVal.fin q) (FVal.fin 1) by show ¬ ((1 : ℝ) < q); linarith),
          if_neg (show ¬ fgt (FVal.fin q) (FVal.fin 0) by show ¬ ((0 : ℝ) < q); linarith),
          if_neg (show ¬ fgt (FVal.fin q) (FVal.fin (-1)) by show ¬ ((-1 : ℝ) < q); linarith)]
      rw [hl]
      exact ⟨iff_of_false (by decide) (by intro h; linarith),
        iff_of_false (by decide) (by intro h; linarith [h.1]),
        iff_of_false (by decide) (by intro h; linarith [h.1]),
        iff_of_true rfl h1⟩
    · rcases le_or_lt q 0 with h2 | h2
      · have hl : trendLabel (FVal.fin q) = "↘️ **Slightly Bearish** - Market trending downward" := by
          rw [trendLabel,
            if_neg (show ¬ fgt (FVal.fin q) (FVal.fin 1) by show ¬ ((1 : ℝ) < q); linarith),
            if_neg (show ¬ fgt (FVal.fin q) (FVal.fin 0) by show ¬ ((0 : ℝ) < q); linarith),
            if_pos (show fgt (FVal.fin q) (FVal.fin (-1)) by show (-1 : ℝ) < q; linarith)]
        rw [hl]
        exact ⟨iff_of_false (by decide) (by intro h; linarith),
          iff_of_false (by decide) (by intro h; linarith [h.1]),
          iff_of_true rfl ⟨h1, h2⟩,
          iff_of_false (by decide) (by intro h; linarith)⟩
      · rcases le_or_lt q 1 with h3 | h3
        · have hl : trendLabel (FVal.fin q) = "↗️ **Slightly Bullish** - Market trending upward" := by
            rw [trendLabel,
              if_neg (show ¬ fgt (FVal.fin q) (FVal.fin 1) by show ¬ ((1 : ℝ) < q); linarith),
              if_pos (show fgt (FVal.fin q) (FVal.fin 0) by show (0 : ℝ) < q; linarith)]
          rw [hl]
          exact ⟨iff_of_false (by decide) (by intro h; linarith),
            iff_of_true rfl ⟨h2, h3⟩,
            iff_of_false (by decide) (by intro h; linarith [h.2]),
            iff_of_false (by decide) (by intro h; linarith)⟩
        · have hl : trendLabel (FVal.fin q) = "📈 **Bullish** - Market showing strong upward momentum" := by
            rw [trendLabel,
              if_pos (show fgt (FVal.fin q) (FVal.fin 1) by show (1 : ℝ) < q; linarith)]
          rw [hl]
          exact ⟨iff_of_true rfl h3,
            iff_of_false (by decide) (by intro h; linarith [h.2]),
            iff_of_false (by decide) (by intro h; linarith [h.2]),
            iff_of_false (by decide) (by intro h; linarith)⟩
  have hvol :
      (volLabel (FVal.fin r) = "⚠️ **High Volatility** - Significant price swings" ↔ 3 < r) ∧
      (volLabel (FVal.fin r) = "📊 **Moderate Volatility** - Normal market fluctuations" ↔
        (3 / 2 < r ∧ r ≤ 3)) ∧
      (volLabel (FVal.fin r) = "✅ **Low Volatility** - Stable price action" ↔ r ≤ 3 / 2) := by
    rcases le_or_lt r (3 / 2) with h1 | h1
    · have hl : volLabel (FVal.fin r) = "✅ **Low Volatility** - Stable price action" := by
        rw [volLabel,
          if_neg (show ¬ fgt (FVal.fin r) (FVal.fin 3) by show ¬ ((3 : ℝ) < r); linarith),
          if_neg (show ¬ fgt (FVal.fin r) (FVal.fin (3 / 2)) by show ¬ ((3 / 2 : ℝ) < r); linarith)]
      rw [hl]
      exact ⟨iff_of_false (by decide) (by intro h; linarith),
        iff_of_false (by decide) (by intro h; linarith [h.1]),
        iff_of_true rfl h1⟩
    · rcases le_or_lt r 3 with h2 | h2
      · have hl : volLabel (FVal.fin r) = "📊 **Moderate Volatility** - Normal market fluctuations" := by
          rw [volLabel,
            if_neg (show ¬ fgt (FVal.fin r) (FVal.fin 3) by show ¬ ((3 : ℝ) < r); linarith),
            if_pos (show fgt (FVal.fin r) (FVal.fin (3 / 2)) by show (3 / 2 : ℝ) < r; linarith)]
        rw [hl]
        exact ⟨iff_of_false (by decide) (by intro h; linarith),
          iff_of_true rfl ⟨h1, h2⟩,
          iff_of_false (by decide) (by intro h; linarith)⟩
      · have hl : volLabel (FVal.fin r) = "⚠️ **High Volatility** - Significant price swings" := by
          rw [volLabel,
            if_pos (show fgt (FVal.fin r) (FVal.fin 3) by show (3 : ℝ) < r; linarith)]
        rw [hl]
        exact ⟨iff_of_true rfl h2,
          iff_of_false (by decide) (by intro h; linarith [h.2]),
          iff_of_false (by decide) (by intro h; linarith)⟩
  refine ⟨htrend.1, htrend.2.1, htrend.2.2.1, htrend.2.2.2, hvol.1, hvol.2.1, hvol.2.2,
    ?_, ?_, ?_⟩
  · rw [trendLabel,
      if_pos (show fgt (FVal.fin (5 / 2)) (FVal.fin 1) by show (1 : ℝ) < 5 / 2; norm_num)]
  · rw [volLabel,
      if_neg (show ¬ fgt (FVal.fin 2) (FVal.fin 3) by show ¬ ((3 : ℝ) < 2); norm_num),
      if_pos (show fgt (FVal.fin 2) (FVal.fin (3 / 2)) by show (3 / 2 : ℝ) < 2; norm_num)]
  · intro hok
    rw [gmr_ok_lines t stats corr tickers tstr lines hok]
    constructor
    · have hmem : ("**Overall Market Trend:** " ++
          trendLabel (npMean (stats.map (fun p => p.2.pct_change)))) ∈ insightLines stats := by
        simp [insightLines]
      exact List.mem_append.mpr (Or.inl (List.mem_append.mpr (Or.inr hmem)))
    · have hmem : ("**Market Volatility:** " ++
          volLabel (npMean (stats.map (fun p => p.2.volatility)))) ∈ insightLines stats := by
        simp [insightLines]
      exact List.mem_append.mpr (Or.inl (List.mem_append.mpr (Or.inr hmem)))

/-- A one-symbol stats dict whose percent-change is 2.5 and whose
volatility is 2.0 (so both means equal those values). -/
noncomputable def ladderStats : List (String × SymbolStats) :=
  [("A", { current := FVal.fin 1, mean := FVal.fin 1, median := FVal.fin 1,
           min := FVal.fin 1, max := FVal.fin 1, std := FVal.fin 0,
           total_change := FVal.fin 0, pct_change := FVal.fin (5 / 2),
           volatility := FVal.fin 2, data_points := 1 })]

/-- Witness for C4: rendering `ladderStats` puts the trend and volatility
labels (applied to the means) into the Market Insights section. -/
theorem trend_volatility_ladder_witness :
    ("**Overall Market Trend:** " ++
        trendLabel (npMean (ladderStats.map (fun p => p.2.pct_change)))) ∈
      (headerLines scenarioTable "T" ++ execLines ladderStats
        ++ individualLines ["A"] ladderStats ++ corrLines none ["A"]
        ++ insightLines ladderStats ++ footerLines scenarioTable ["A"] "T") ∧
    ("**Market Volatility:** " ++
        volLabel (npMean (ladderStats.map (fun p => p.2.volatility)))) ∈
      (headerLines scenarioTable "T" ++ execLines ladderStats
        ++ individualLines ["A"] ladderStats ++ corrLines none ["A"]
        ++ insightLines ladderStats ++ footerLines scenarioTable ["A"] "T") :=
  (trend_volatility_ladder 0 0 scenarioTable ladderStats none ["A"] "T"
    _).2.2.2.2.2.2.2.2.2 rfl
